import Mathlib

set_option autoImplicit false

/-!
Verification of the gb-emu file/auth server (`auth/handlers.go`) and the
client token lifecycle manager (`gbajs3/src/context/auth/auth-provider.tsx`)
against their natural-language specification.

The Go handlers and the TypeScript provider are shallowly embedded: handlers
become pure functions from a request record to the HTTP response paired with
the list of file-store operations they invoke (the store itself lives outside
the shown sources, so an operation records the exact path string the handler
passes to it); the provider becomes a state record with the source's guard
predicates and a small-step transition relation for the interval scheduler.
-/

namespace GbEmu

/-! ## Lexical path analysis

Paths reach the file store as plain strings built by concatenation.  To talk
about escape from a directory we split a path on `'/'`, drop empty segments,
resolve `"."` and `".."` segments lexically, and compare component lists. -/

/-- Split a character list on `'/'`; `acc` holds the current segment reversed. -/
def splitSlashAux : List Char → List Char → List (List Char)
  | acc, [] => [acc.reverse]
  | acc, c :: cs =>
    if c = '/' then acc.reverse :: splitSlashAux [] cs
    else splitSlashAux (c :: acc) cs

/-- The nonempty `'/'`-separated segments of a character list. -/
def compsL (l : List Char) : List (List Char) :=
  (splitSlashAux [] l).filter (fun c => !c.isEmpty)

/-- Resolve `"."` and `".."` segments lexically; `stack` holds the segments
kept so far, in reverse. A `".."` at the top is dropped (it cannot go above
the filesystem root). -/
def normAux : List (List Char) → List (List Char) → List (List Char)
  | stack, [] => stack.reverse
  | stack, c :: cs =>
    if c = ['.'] then normAux stack cs
    else if c = ['.', '.'] then normAux stack.tail cs
    else normAux (c :: stack) cs

/-- The lexically resolved component list of a path string. -/
def normPath (s : String) : List (List Char) :=
  normAux [] (compsL s.data)

/-- Whether the first component list is an initial run of the second. -/
def startsWith : List (List Char) → List (List Char) → Bool
  | [], _ => true
  | _ :: _, [] => false
  | a :: as, b :: bs => if a = b then startsWith as bs else false

/-- A path `p` escapes the directory `root` when the resolved components of
`root` are not an initial run of the resolved components of `p`. -/
def pathEscapes (root p : String) : Bool :=
  !startsWith (normPath root) (normPath p)

/-- A plain directory-entry name: nonempty, no separator, not a dot segment. -/
def goodName (s : String) : Prop :=
  s.data ≠ [] ∧ '/' ∉ s.data ∧ s.data ≠ ['.'] ∧ s.data ≠ ['.', '.']

instance (s : String) : Decidable (goodName s) := by
  unfold goodName; infer_instance

/-! ## Server model (`auth/handlers.go`)

Claims, the storage-path resolver, and the six HTTP handlers. The resolver
`getStorePathFromClaims` and the configured root directories are not among the
shown source files and are modelled from the spec; every handler body below is
translated line by line from `handlers.go`. -/

/-- The decoded claims of a verified access token (spec §3: subject identity
and expiry; the storage path is derived from the subject). -/
structure Claims where
  subject : String
  exp : Nat
deriving DecidableEq

/-- Modelled from the spec: `getStorePathFromClaims` is not among the shown
source files. Per spec §4.2 the Storage Path Resolver fails when the request
context carries no valid claims and otherwise returns "a literal,
traversal-free subdirectory name distinct per subject"; we model it as the
subject followed by a separator. -/
def getStorePathFromClaims : Option Claims → Except Unit String
  | none => Except.error ()
  | some c => Except.ok (c.subject ++ "/")

/-- Modelled from the spec: the configured rom root directory (its value is
assigned outside the shown sources; a concrete stand-in). -/
def romPath : String := "roms/"

/-- Modelled from the spec: the configured save root directory (its value is
assigned outside the shown sources; a concrete stand-in). -/
def savePath : String := "saves/"

/-- The HTTP status codes the handlers write. -/
inductive HttpStatus where
  | ok
  | badRequest
  | internalServerError
deriving DecidableEq

/-- A handler's response: status plus whatever it printed to the body. -/
structure Response where
  status : HttpStatus
  body : String
deriving DecidableEq

/-- A file-store invocation, recording the exact path string the handler
passes to the store helper (`readFileData`,
`createOrOverwriteFileIfNotExists`, `fileNamesFromDirPath`). -/
inductive StoreOp where
  | read (p : String)
  | write (p : String)
  | list (p : String)
deriving DecidableEq

/-- The path string of a store operation. -/
def StoreOp.path : StoreOp → String
  | read p => p
  | write p => p
  | list p => p

/-- A download request: the filename query parameter (Go's `Query().Get`
yields `""` when absent), the verified claims in the request context, and
whether the underlying file read succeeds. -/
structure DownloadRequest where
  fname : String
  ctxClaims : Option Claims
  storeOk : Bool

/-- An upload request: total body size, the multipart file field (its
filename, when the field is present and parseable), the verified claims in
the request context, and whether the underlying file write succeeds. -/
structure UploadRequest where
  bodySize : Nat
  formFile : Option String
  ctxClaims : Option Claims
  storeOk : Bool

/-- A list request: the verified claims and whether the directory read (and
JSON encoding) succeeds. -/
structure ListRequest where
  ctxClaims : Option Claims
  storeOk : Bool

/-- The upload body cap `50<<20+1024` installed by `http.MaxBytesReader`. -/
def maxUploadBytes : Nat := 50 * 2 ^ 20 + 1024

/-- `r.FormFile` after `MaxBytesReader`: parsing the multipart form fails
when the body exceeds the cap or the field is absent; otherwise it yields the
uploaded file's name. -/
def formFileResult (req : UploadRequest) : Except Unit String :=
  if maxUploadBytes < req.bodySize then Except.error ()
  else
    match req.formFile with
    | none => Except.error ()
    | some fn => Except.ok fn

/-- Go's `filepath.Ext` on a reversed character list: collect characters
until the final dot (inclusive); stop empty at a separator or when no dot
occurs in the last element. -/
def extRevAux : List Char → List Char → Option (List Char)
  | _, [] => none
  | acc, c :: cs =>
    if c = '.' then some ('.' :: acc)
    else if c = '/' then none
    else extRevAux (c :: acc) cs

/-- Go's `filepath.Ext`: the suffix of the final path element starting at its
final dot, `""` when there is none. -/
def filepathExt (s : String) : String :=
  match extRevAux [] s.data.reverse with
  | none => ""
  | some cs => String.mk cs

/-- The allow-list `validRomExtensions` of `uploadRom`. -/
def validRomExtensions : List String := [".gba", ".gbc", ".gb", ".zip", ".7z"]

/-- The body `uploadRom` prints when the extension check rejects. -/
def romExtErrorMsg : String :=
  "File not in gba format, expected extensions are .gba/.gbc/.gb/.zip/.7z"

/-- `downloadSave`: reject an empty filename, resolve the store path, then
read `savePath + storePath + fname`. -/
def downloadSave (req : DownloadRequest) : Response × List StoreOp :=
  if req.fname = "" then ({ status := HttpStatus.badRequest, body := "" }, [])
  else
    match getStorePathFromClaims req.ctxClaims with
    | Except.error _ => ({ status := HttpStatus.badRequest, body := "" }, [])
    | Except.ok storePath =>
      ({ status := if req.storeOk then HttpStatus.ok else HttpStatus.internalServerError,
         body := "" },
       [StoreOp.read (savePath ++ storePath ++ req.fname)])

/-- `downloadRom`: identical to `downloadSave` with the rom root and the
`rom` query parameter. -/
def downloadRom (req : DownloadRequest) : Response × List StoreOp :=
  if req.fname = "" then ({ status := HttpStatus.badRequest, body := "" }, [])
  else
    match getStorePathFromClaims req.ctxClaims with
    | Except.error _ => ({ status := HttpStatus.badRequest, body := "" }, [])
    | Except.ok storePath =>
      ({ status := if req.storeOk then HttpStatus.ok else HttpStatus.internalServerError,
         body := "" },
       [StoreOp.read (romPath ++ storePath ++ req.fname)])

/-- `uploadRom`: cap the body, parse the form file, check the extension
allow-list, resolve the store path, then write
`romPath + storePath + filename`. -/
def uploadRom (req : UploadRequest) : Response × List StoreOp :=
  match formFileResult req with
  | Except.error _ => ({ status := HttpStatus.badRequest, body := "" }, [])
  | Except.ok filename =>
    let fileExtension := filepathExt filename
    if !(validRomExtensions.contains fileExtension) then
      ({ status := HttpStatus.badRequest, body := romExtErrorMsg }, [])
    else
      match getStorePathFromClaims req.ctxClaims with
      | Except.error _ => ({ status := HttpStatus.badRequest, body := "" }, [])
      | Except.ok storePath =>
        ({ status := if req.storeOk then HttpStatus.ok else HttpStatus.internalServerError,
           body := "" },
         [StoreOp.write (romPath ++ storePath ++ filename)])

/-- `uploadSave`: like `uploadRom` but with no extension check and the save
root. -/
def uploadSave (req : UploadRequest) : Response × List StoreOp :=
  match formFileResult req with
  | Except.error _ => ({ status := HttpStatus.badRequest, body := "" }, [])
  | Except.ok filename =>
    match getStorePathFromClaims req.ctxClaims with
    | Except.error _ => ({ status := HttpStatus.badRequest, body := "" }, [])
    | Except.ok storePath =>
      ({ status := if req.storeOk then HttpStatus.ok else HttpStatus.internalServerError,
         body := "" },
       [StoreOp.write (savePath ++ storePath ++ filename)])

/-- `listAllRoms`: resolve the store path, then list `romPath + storePath`. -/
def listAllRoms (req : ListRequest) : Response × List StoreOp :=
  match getStorePathFromClaims req.ctxClaims with
  | Except.error _ => ({ status := HttpStatus.badRequest, body := "" }, [])
  | Except.ok storePath =>
    ({ status := if req.storeOk then HttpStatus.ok else HttpStatus.internalServerError,
       body := "" },
     [StoreOp.list (romPath ++ storePath)])

/-- `listAllSaves`: resolve the store path, then list `savePath + storePath`. -/
def listAllSaves (req : ListRequest) : Response × List StoreOp :=
  match getStorePathFromClaims req.ctxClaims with
  | Except.error _ => ({ status := HttpStatus.badRequest, body := "" }, [])
  | Except.ok storePath =>
    ({ status := if req.storeOk then HttpStatus.ok else HttpStatus.internalServerError,
       body := "" },
     [StoreOp.list (savePath ++ storePath)])

/-! ## Client model (`auth-provider.tsx`)

The token lifecycle manager: `jwt-decode`, the `isAuthenticated` callback,
the guard predicates of the two effects, and a small-step relation for the
execution of the interval scheduler. -/

/-- The decoded payload of a JWT (`JwtPayload`): an optional `exp` claim in
unix seconds. -/
structure JwtPayload where
  exp : Option Nat
deriving DecidableEq

/-- A held access token string, abstracted by whether `jwtDecode` accepts
it: a well-formed token carries its payload, a malformed one only its raw
text. -/
inductive Token where
  | malformed (raw : String)
  | wellFormed (payload : JwtPayload)
deriving DecidableEq

instance {e a : Type} [DecidableEq e] [DecidableEq a] : DecidableEq (Except e a) := fun x y =>
  match x, y with
  | Except.error u, Except.error v => decidable_of_iff (u = v) (by simp)
  | Except.error _, Except.ok _ => isFalse (by simp)
  | Except.ok _, Except.error _ => isFalse (by simp)
  | Except.ok u, Except.ok v => decidable_of_iff (u = v) (by simp)

/-- `jwt-decode`'s `jwtDecode`: returns the payload of a well-formed token
and throws (`Except.error`) on a malformed one. -/
def jwtDecode : Token → Except Unit JwtPayload
  | Token.malformed _ => Except.error ()
  | Token.wellFormed p => Except.ok p

/-- The provider's `isAuthenticated` callback at wall-clock time `nowMs`
(milliseconds): `false` with no token; otherwise decode (propagating the
exception of a malformed token) and test the JavaScript condition
`exp && Date.now() <= exp * 1000` — `exp` must be present and truthy
(nonzero) and not map to a millisecond instant before now. -/
def isAuthenticated (accessToken : Option Token) (nowMs : Nat) : Except Unit Bool :=
  match accessToken with
  | none => Except.ok false
  | some tok =>
    match jwtDecode tok with
    | Except.error e => Except.error e
    | Except.ok payload =>
      match payload.exp with
      | none => Except.ok false
      | some exp => if exp ≠ 0 ∧ nowMs ≤ exp * 1000 then Except.ok true else Except.ok false

/-- `isAuthenticated` as the scheduler's guard reads it (the states the
scheduler model ranges over hold tokens obtained from refresh or login,
which decode; on those the two agree). -/
def isAuthB (accessToken : Option Token) (nowMs : Nat) : Bool :=
  match isAuthenticated accessToken nowMs with
  | Except.ok b => b
  | Except.error _ => false

/-- The tag recorded by `setAccessTokenSource`. -/
inductive TokenSource where
  | login
  | refresh
deriving DecidableEq

/-- The provider's state: the held token and its source, the refresh hook's
last response (`accessTokenResp`) and recorded error (`refreshTokenError`),
the number of refresh calls currently in flight, and wall-clock time. -/
structure ClientState where
  accessToken : Option Token
  accessTokenSource : Option TokenSource
  accessTokenResp : Option Token
  refreshTokenError : Bool
  inFlight : Nat
  nowMs : Nat
deriving DecidableEq

/-- The constant `fourMinutesInMS = 240 * 1000`. -/
def fourMinutesInMS : Nat := 240 * 1000

/-- The delay passed to `useInterval`:
`isAuthenticated() && !refreshTokenError ? fourMinutesInMS : null`. -/
def intervalDelay (s : ClientState) : Option Nat :=
  if isAuthB s.accessToken s.nowMs && !s.refreshTokenError then some fourMinutesInMS
  else none

/-- The provider's `shouldClearRefreshTokenError` guard:
`isAuthenticated() && !accessTokenResp && accessTokenSource !== 'refresh'`. -/
def shouldClearRefreshTokenError (s : ClientState) : Bool :=
  isAuthB s.accessToken s.nowMs && s.accessTokenResp.isNone &&
    !(s.accessTokenSource == some TokenSource.refresh)

/-- The effect gated on `shouldClearRefreshTokenError`: call
`refreshClearError()`. -/
def applyClearErrorEffect (s : ClientState) : ClientState :=
  if shouldClearRefreshTokenError s then { s with refreshTokenError := false } else s

/-- One step of the provider's execution. `tick` fires the interval callback
(`useInterval` runs it only when the delay is non-null) and starts a refresh
call; a refresh call resolves with a token (stored with source `refresh` by
the `shouldSetAccessToken` effect, the hook recording the response and, per
spec §7, a success clearing the failure state) or rejects (the hook records
the error); `login` is an interactive login storing a token through
`setAccessToken`/`setAccessTokenSource`; `clearError` is the effect gated on
`shouldClearRefreshTokenError`; `advance` lets wall-clock time pass. -/
inductive Step : ClientState → ClientState → Prop
  | tick (s : ClientState) (d : Nat) (h : intervalDelay s = some d) :
      Step s { s with nowMs := s.nowMs + d, inFlight := s.inFlight + 1 }
  | refreshSuccess (s : ClientState) (tok : Token) (h : 0 < s.inFlight) :
      Step s { s with inFlight := s.inFlight - 1, accessTokenResp := some tok,
                      accessToken := some tok,
                      accessTokenSource := some TokenSource.refresh,
                      refreshTokenError := false }
  | refreshFailure (s : ClientState) (h : 0 < s.inFlight) :
      Step s { s with inFlight := s.inFlight - 1, refreshTokenError := true }
  | login (s : ClientState) (tok : Token) :
      Step s { s with accessToken := some tok,
                      accessTokenSource := some TokenSource.login }
  | clearError (s : ClientState) (h : shouldClearRefreshTokenError s = true) :
      Step s { s with refreshTokenError := false }
  | advance (s : ClientState) (t : Nat) :
      Step s { s with nowMs := s.nowMs + t }

/-! ## Path analysis lemmas -/

theorem splitSlashAux_append (xs : List Char) :
    ∀ (acc ys : List Char),
      splitSlashAux acc (xs ++ '/' :: ys) = splitSlashAux acc xs ++ splitSlashAux [] ys := by
  induction xs with
  | nil => intro acc ys; simp [splitSlashAux]
  | cons c cs ih =>
    intro acc ys
    by_cases hc : c = '/'
    · subst hc; simp [splitSlashAux, ih]
    · simp [splitSlashAux, hc, ih]

theorem splitSlashAux_no_slash (xs : List Char) (h : '/' ∉ xs) :
    ∀ acc : List Char, splitSlashAux acc xs = [acc.reverse ++ xs] := by
  induction xs with
  | nil => intro acc; simp [splitSlashAux]
  | cons c cs ih =>
    intro acc
    have hc : ¬ c = '/' := fun e => h (e ▸ List.mem_cons_self c cs)
    have h' : '/' ∉ cs := fun hm => h (List.mem_cons_of_mem _ hm)
    simp [splitSlashAux, hc, ih h']

theorem compsL_append_slash (u v : List Char) :
    compsL (u ++ '/' :: v) = compsL u ++ compsL v := by
  unfold compsL
  rw [splitSlashAux_append, List.filter_append]

theorem compsL_no_slash (l : List Char) (h : '/' ∉ l) (hne : l ≠ []) :
    compsL l = [l] := by
  unfold compsL
  rw [splitSlashAux_no_slash l h]
  simp [hne]

theorem compsL_nil : compsL [] = [] := by decide

theorem normAux_clean (l : List (List Char))
    (h : ∀ c ∈ l, c ≠ ['.'] ∧ c ≠ ['.', '.']) :
    ∀ stack : List (List Char), normAux stack l = stack.reverse ++ l := by
  induction l with
  | nil => intro stack; simp [normAux]
  | cons c cs ih =>
    intro stack
    obtain ⟨h1, h2⟩ := h c (List.mem_cons_self c cs)
    have h' : ∀ d ∈ cs, d ≠ ['.'] ∧ d ≠ ['.', '.'] :=
      fun d hd => h d (List.mem_cons_of_mem _ hd)
    simp [normAux, h1, h2, ih h']

theorem startsWith_append (l m : List (List Char)) : startsWith l (l ++ m) = true := by
  induction l with
  | nil => simp [startsWith]
  | cons a as ih => simp [startsWith, ih]

theorem startsWith_self (l : List (List Char)) : startsWith l l = true := by
  have h := startsWith_append l []
  simpa using h

theorem noEscape_core (w a b : List Char)
    (hw : w ≠ [] ∧ '/' ∉ w ∧ w ≠ ['.'] ∧ w ≠ ['.', '.'])
    (ha : a ≠ [] ∧ '/' ∉ a ∧ a ≠ ['.'] ∧ a ≠ ['.', '.'])
    (hb : b ≠ [] ∧ '/' ∉ b ∧ b ≠ ['.'] ∧ b ≠ ['.', '.']) :
    startsWith (normAux [] (compsL (w ++ '/' :: (a ++ ['/']))))
               (normAux [] (compsL (w ++ '/' :: (a ++ '/' :: b)))) = true := by
  obtain ⟨hwne, hwslash, hw1, hw2⟩ := hw
  obtain ⟨hane, haslash, ha1, ha2⟩ := ha
  obtain ⟨hbne, hbslash, hb1, hb2⟩ := hb
  have e1 : compsL (w ++ '/' :: (a ++ ['/'])) = [w, a] := by
    have h0 : a ++ ['/'] = a ++ '/' :: ([] : List Char) := rfl
    rw [compsL_append_slash, compsL_no_slash w hwslash hwne, h0, compsL_append_slash,
        compsL_no_slash a haslash hane, compsL_nil]
    simp
  have e2 : compsL (w ++ '/' :: (a ++ '/' :: b)) = [w, a, b] := by
    rw [compsL_append_slash, compsL_no_slash w hwslash hwne, compsL_append_slash,
        compsL_no_slash a haslash hane, compsL_no_slash b hbslash hbne]
    simp
  rw [e1, e2]
  rw [normAux_clean [w, a] (by simp [hw1, hw2, ha1, ha2]),
      normAux_clean [w, a, b] (by simp [hw1, hw2, ha1, ha2, hb1, hb2])]
  simp only [List.reverse_nil, List.nil_append]
  have h3 : ([w, a, b] : List (List Char)) = [w, a] ++ [b] := rfl
  rw [h3]
  exact startsWith_append [w, a] [b]

theorem pathEscapes_store_false (w a b : String)
    (hw : goodName w) (ha : goodName a) (hb : goodName b) :
    pathEscapes ((w ++ "/") ++ (a ++ "/")) (((w ++ "/") ++ (a ++ "/")) ++ b) = false := by
  have hsl : ("/" : String).data = ['/'] := rfl
  have d1 : ((w ++ "/") ++ (a ++ "/")).data = w.data ++ '/' :: (a.data ++ ['/']) := by
    simp [String.data_append, hsl]
  have d2 : (((w ++ "/") ++ (a ++ "/")) ++ b).data
      = w.data ++ '/' :: (a.data ++ '/' :: b.data) := by
    simp [String.data_append, hsl]
  unfold pathEscapes normPath
  rw [d1, d2, noEscape_core w.data a.data b.data hw ha hb]
  rfl

theorem pathEscapes_dir_false (p : String) : pathEscapes p p = false := by
  unfold pathEscapes
  rw [startsWith_self]
  rfl

/-! ## The claims -/

/-- Claim C1, counterexample: the claim says no client-supplied input,
including the filename parameter, can move a file access outside the
resolved StorePath directory. But `downloadSave` passes
`savePath + storePath + fname` to the store with the query parameter `fname`
concatenated unsanitized: for the subject `alice` and the client-chosen
filename `../bob/secret.sav`, the accessed path resolves outside the
directory `saves/alice/`. -/
theorem C1_counterexample :
    (downloadSave { fname := "../bob/secret.sav",
                    ctxClaims := some { subject := "alice", exp := 99 },
                    storeOk := true }).2 =
      [StoreOp.read "saves/alice/../bob/secret.sav"] ∧
    pathEscapes (savePath ++ ("alice" ++ "/")) "saves/alice/../bob/secret.sav" = true := by
  decide

/-- Claim C1 (corrected): the StorePath prefix of every accessed path is
derived exclusively from verified claims, and the list operations (which take
no client path input) never escape it; the download/upload filename, however,
is client-supplied and appended unsanitized, so the access is confined to the
per-tenant directory only when that filename is a plain entry name (nonempty,
no separator, not a dot segment). -/
theorem C1_amended (subject fname : String) (e n : Nat) (ok : Bool)
    (hs : goodName subject) (hf : goodName fname) :
    (∀ op ∈ (downloadSave { fname := fname, ctxClaims := some { subject := subject, exp := e },
                            storeOk := ok }).2,
        pathEscapes (savePath ++ (subject ++ "/")) (StoreOp.path op) = false) ∧
    (∀ op ∈ (downloadRom { fname := fname, ctxClaims := some { subject := subject, exp := e },
                           storeOk := ok }).2,
        pathEscapes (romPath ++ (subject ++ "/")) (StoreOp.path op) = false) ∧
    (∀ op ∈ (uploadRom { bodySize := n, formFile := some fname,
                         ctxClaims := some { subject := subject, exp := e },
                         storeOk := ok }).2,
        pathEscapes (romPath ++ (subject ++ "/")) (StoreOp.path op) = false) ∧
    (∀ op ∈ (uploadSave { bodySize := n, formFile := some fname,
                          ctxClaims := some { subject := subject, exp := e },
                          storeOk := ok }).2,
        pathEscapes (savePath ++ (subject ++ "/")) (StoreOp.path op) = false) ∧
    (∀ op ∈ (listAllRoms { ctxClaims := some { subject := subject, exp := e },
                           storeOk := ok }).2,
        pathEscapes (romPath ++ (subject ++ "/")) (StoreOp.path op) = false) ∧
    (∀ op ∈ (listAllSaves { ctxClaims := some { subject := subject, exp := e },
                            storeOk := ok }).2,
        pathEscapes (savePath ++ (subject ++ "/")) (StoreOp.path op) = false) := by
  have hsave : savePath = "saves" ++ "/" := by decide
  have hrom : romPath = "roms" ++ "/" := by decide
  have hwS : goodName "saves" := by decide
  have hwR : goodName "roms" := by decide
  have hfne : ¬ fname = "" := by
    intro h
    exact hf.1 (by rw [h])
  refine ⟨?_, ?_, ?_, ?_, ?_, ?_⟩
  · intro op hop
    simp [downloadSave, getStorePathFromClaims, hfne] at hop
    subst hop
    rw [hsave]
    exact pathEscapes_store_false "saves" subject fname hwS hs hf
  · intro op hop
    simp [downloadRom, getStorePathFromClaims, hfne] at hop
    subst hop
    rw [hrom]
    exact pathEscapes_store_false "roms" subject fname hwR hs hf
  · intro op hop
    by_cases hcap : maxUploadBytes < n
    · simp [uploadRom, formFileResult, hcap] at hop
    · by_cases hext : filepathExt fname ∈ validRomExtensions
      · simp [uploadRom, formFileResult, hcap, hext, getStorePathFromClaims] at hop
        subst hop
        rw [hrom]
        exact pathEscapes_store_false "roms" subject fname hwR hs hf
      · simp [uploadRom, formFileResult, hcap, hext] at hop
  · intro op hop
    by_cases hcap : maxUploadBytes < n
    · simp [uploadSave, formFileResult, hcap] at hop
    · simp [uploadSave, formFileResult, hcap, getStorePathFromClaims] at hop
      subst hop
      rw [hsave]
      exact pathEscapes_store_false "saves" subject fname hwS hs hf
  · intro op hop
    simp [listAllRoms, getStorePathFromClaims] at hop
    subst hop
    exact pathEscapes_dir_false _
  · intro op hop
    simp [listAllSaves, getStorePathFromClaims] at hop
    subst hop
    exact pathEscapes_dir_false _

/-- Claim C1, witness: the amended theorem applied to the subject `alice` and
the plain filename `game.sav` — the save download access stays inside
`saves/alice/`. -/
theorem C1_witness :
    pathEscapes (savePath ++ ("alice" ++ "/"))
      (StoreOp.path (StoreOp.read "saves/alice/game.sav")) = false :=
  (C1_amended "alice" "game.sav" 1 0 true (by decide) (by decide)).1
    (StoreOp.read "saves/alice/game.sav") (by decide)

/-- Claim C2, counterexample: the claim says that when claims resolution
fails no other per-request validation outcome — such as the extension
rejection message — is returned instead. But `uploadRom` checks the
extension before calling `getStorePathFromClaims`: for a request with no
valid claims and the filename `notes.txt`, the response is the extension
rejection message, not the bare unauthorized response. -/
theorem C2_counterexample :
    (uploadRom { bodySize := 0, formFile := some "notes.txt", ctxClaims := none,
                 storeOk := true }).1 =
      { status := HttpStatus.badRequest, body := romExtErrorMsg } ∧
    romExtErrorMsg ≠ "" := by
  decide

/-- Claim C2 (corrected): whenever claims resolution fails every route
answers with a client-error status and attempts no store access; the
resolver is however not evaluated first — form parsing and, for ROM uploads,
the extension check precede it, so a ROM upload with failing resolution and
a disallowed extension returns the extension rejection message. -/
theorem C2_amended (dl : DownloadRequest) (up : UploadRequest) (ls : ListRequest)
    (hdl : dl.ctxClaims = none) (hup : up.ctxClaims = none) (hls : ls.ctxClaims = none) :
    ((downloadSave dl).1.status = HttpStatus.badRequest ∧ (downloadSave dl).2 = []) ∧
    ((downloadRom dl).1.status = HttpStatus.badRequest ∧ (downloadRom dl).2 = []) ∧
    ((uploadRom up).1.status = HttpStatus.badRequest ∧ (uploadRom up).2 = []) ∧
    ((uploadSave up).1.status = HttpStatus.badRequest ∧ (uploadSave up).2 = []) ∧
    ((listAllRoms ls).1.status = HttpStatus.badRequest ∧ (listAllRoms ls).2 = []) ∧
    ((listAllSaves ls).1.status = HttpStatus.badRequest ∧ (listAllSaves ls).2 = []) := by
  refine ⟨?_, ?_, ?_, ?_, ?_, ?_⟩
  · by_cases hf : dl.fname = "" <;> simp [downloadSave, hf, hdl, getStorePathFromClaims]
  · by_cases hf : dl.fname = "" <;> simp [downloadRom, hf, hdl, getStorePathFromClaims]
  · cases hff : formFileResult up with
    | error e => simp [uploadRom, hff]
    | ok fn =>
      by_cases hext : filepathExt fn ∈ validRomExtensions <;>
        simp [uploadRom, hff, hext, hup, getStorePathFromClaims]
  · cases hff : formFileResult up with
    | error e => simp [uploadSave, hff]
    | ok fn => simp [uploadSave, hff, hup, getStorePathFromClaims]
  · simp [listAllRoms, hls, getStorePathFromClaims]
  · simp [listAllSaves, hls, getStorePathFromClaims]

/-- Claim C2, witness: the amended theorem at concrete requests whose
context carries no claims — the save upload is refused with a client error
and no store operation. -/
theorem C2_witness :
    (uploadSave { bodySize := 0, formFile := some "game.sav", ctxClaims := none,
                  storeOk := true }).1.status = HttpStatus.badRequest ∧
    (uploadSave { bodySize := 0, formFile := some "game.sav", ctxClaims := none,
                  storeOk := true }).2 = [] :=
  (C2_amended { fname := "game.sav", ctxClaims := none, storeOk := true }
    { bodySize := 0, formFile := some "game.sav", ctxClaims := none, storeOk := true }
    { ctxClaims := none, storeOk := true } rfl rfl rfl).2.2.2.1

/-- Claim C3, counterexample: the claim says at most one refresh call is
ever in flight, guaranteed by gating the timer on the refresh-loading flag.
The delay passed to `useInterval` is
`isAuthenticated() && !refreshTokenError ? fourMinutesInMS : null` — no
loading flag — so with a long-lived token and no recorded error the interval
fires again while the first refresh call is still unresolved: after two
ticks two refresh calls are in flight. -/
theorem C3_counterexample :
    Step { accessToken := some (Token.wellFormed { exp := some 1000000 }),
           accessTokenSource := none, accessTokenResp := none,
           refreshTokenError := false, inFlight := 0, nowMs := 0 }
         { accessToken := some (Token.wellFormed { exp := some 1000000 }),
           accessTokenSource := none, accessTokenResp := none,
           refreshTokenError := false, inFlight := 1, nowMs := 240000 } ∧
    Step { accessToken := some (Token.wellFormed { exp := some 1000000 }),
           accessTokenSource := none, accessTokenResp := none,
           refreshTokenError := false, inFlight := 1, nowMs := 240000 }
         { accessToken := some (Token.wellFormed { exp := some 1000000 }),
           accessTokenSource := none, accessTokenResp := none,
           refreshTokenError := false, inFlight := 2, nowMs := 480000 } :=
  ⟨Step.tick _ fourMinutesInMS (by decide), Step.tick _ fourMinutesInMS (by decide)⟩

/-- Claim C3 (corrected): the interval callback is gated on the held token
being valid and no refresh error being recorded — not on the refresh-loading
flag — so a scheduled tick starts a refresh call exactly when that gate
holds, regardless of how many calls are already in flight; overlap is
avoided only when each refresh resolves within the 240 s period. -/
theorem C3_amended (s : ClientState) :
    (∃ s', Step s s' ∧ s'.inFlight = s.inFlight + 1) ↔
      (isAuthB s.accessToken s.nowMs && !s.refreshTokenError) = true := by
  constructor
  · rintro ⟨s', hstep, hinc⟩
    cases hstep with
    | tick d h =>
      cases hgate : isAuthB s.accessToken s.nowMs && !s.refreshTokenError with
      | false => simp [intervalDelay, hgate] at h
      | true => rfl
    | refreshSuccess tok h => simp at hinc
    | refreshFailure h => simp at hinc

    | login tok => simp at hinc
    | clearError h => simp at hinc
    | advance t => simp at hinc
  · intro hg
    refine ⟨_, Step.tick s fourMinutesInMS ?_, ?_⟩
    · simp [intervalDelay, hg]
    · simp

/-- Claim C4, counterexample: the claim says a valid token set from a
non-refresh source clears a recorded refresh error with no further
precondition. The guard `shouldClearRefreshTokenError` additionally
requires the refresh hook's last response to be absent: in a state holding
a valid token with source `login`, a recorded error, and a retained
refresh response, the effect does not clear the error. -/
theorem C4_counterexample :
    shouldClearRefreshTokenError
      { accessToken := some (Token.wellFormed { exp := some 1000000 }),
        accessTokenSource := some TokenSource.login,
        accessTokenResp := some (Token.wellFormed { exp := some 1000000 }),
        refreshTokenError := true, inFlight := 0, nowMs := 0 } = false ∧
    (applyClearErrorEffect
      { accessToken := some (Token.wellFormed { exp := some 1000000 }),
        accessTokenSource := some TokenSource.login,
        accessTokenResp := some (Token.wellFormed { exp := some 1000000 }),
        refreshTokenError := true, inFlight := 0, nowMs := 0 }).refreshTokenError = true ∧
    isAuthB (some (Token.wellFormed { exp := some 1000000 })) 0 = true := by
  decide

/-- Claim C4 (corrected): after a refresh failure is recorded, a valid
token held from a non-refresh source clears the recorded error and the
interval delay becomes 240 s again — provided additionally that the refresh
hook's last response is absent (`!accessTokenResp`), a precondition the
guard imposes beyond the claim's two. -/
theorem C4_amended (s : ClientState)
    (hauth : isAuthB s.accessToken s.nowMs = true)
    (hsrc : s.accessTokenSource ≠ some TokenSource.refresh)
    (hresp : s.accessTokenResp = none)
    (_herr : s.refreshTokenError = true) :
    (applyClearErrorEffect s).refreshTokenError = false ∧
    intervalDelay (applyClearErrorEffect s) = some fourMinutesInMS := by
  have hbeq : (s.accessTokenSource == some TokenSource.refresh) = false := by
    simp [hsrc]
  have hclear : shouldClearRefreshTokenError s = true := by
    simp [shouldClearRefreshTokenError, hauth, hresp, hbeq]
  constructor
  · simp [applyClearErrorEffect, hclear]
  · simp [applyClearErrorEffect, hclear, intervalDelay, hauth]

/-- Claim C4, witness: the amended theorem at a concrete errored state with
a valid login token and no retained refresh response. -/
theorem C4_witness :
    (applyClearErrorEffect
      { accessToken := some (Token.wellFormed { exp := some 1000000 }),
        accessTokenSource := some TokenSource.login, accessTokenResp := none,
        refreshTokenError := true, inFlight := 0, nowMs := 0 }).refreshTokenError = false ∧
    intervalDelay (applyClearErrorEffect
      { accessToken := some (Token.wellFormed { exp := some 1000000 }),
        accessTokenSource := some TokenSource.login, accessTokenResp := none,
        refreshTokenError := true, inFlight := 0, nowMs := 0 }) = some fourMinutesInMS :=
  C4_amended _ (by decide) (by decide) rfl rfl

/-- Claim C5, counterexample: the claim states `isAuthenticated()` is true
iff the decoded expiry, in milliseconds, is not strictly in the past. For a
decodable token with `exp = 0` at wall-clock `0` the expiry `0 ms` is not in
the past, yet the JavaScript truthiness test `exp && ...` makes the call
return false. -/
theorem C5_counterexample :
    ¬ (isAuthenticated (some (Token.wellFormed { exp := some 0 })) 0 = Except.ok true ↔
        (0 : Nat) ≤ 0 * 1000) := by
  decide

/-- Claim C5 (corrected): `isAuthenticated()` returns true iff a token is
held whose decoded `exp` is present, truthy (nonzero), and maps to a
millisecond instant `exp * 1000` not strictly before wall-clock now; with no
token it returns false, and the claim's concrete instances hold: for
`exp = 1000` s it is true at 900 s and false at 1001 s. -/
theorem C5_amended :
    (∀ nowMs : Nat, isAuthenticated none nowMs = Except.ok false) ∧
    (∀ e nowMs : Nat,
      (isAuthenticated (some (Token.wellFormed { exp := some e })) nowMs = Except.ok true ↔
        (e ≠ 0 ∧ nowMs ≤ e * 1000))) ∧
    isAuthenticated (some (Token.wellFormed { exp := some 1000 })) 900000 = Except.ok true ∧
    isAuthenticated (some (Token.wellFormed { exp := some 1000 })) 1001000 = Except.ok false := by
  refine ⟨fun nowMs => rfl, fun e nowMs => ?_, by decide, by decide⟩
  by_cases h : e ≠ 0 ∧ nowMs ≤ e * 1000
  · simp [isAuthenticated, jwtDecode, h]
  · simp [isAuthenticated, jwtDecode, h]

/-- Claim C6 (confirmed): an upload whose body exceeds `50<<20+1024` bytes
fails multipart parsing under `MaxBytesReader`, so both upload handlers
answer 400 before any store write: no store operation is invoked and no
file is created. -/
theorem C6 (req : UploadRequest) (h : maxUploadBytes < req.bodySize) :
    (uploadRom req).1.status = HttpStatus.badRequest ∧ (uploadRom req).2 = [] ∧
    (uploadSave req).1.status = HttpStatus.badRequest ∧ (uploadSave req).2 = [] := by
  have hff : formFileResult req = Except.error () := by
    simp [formFileResult, h]
  simp [uploadRom, uploadSave, hff]

/-- Claim C6, witness: a 52 429 825-byte body (one byte over the cap) is
rejected by both upload handlers with no store write. -/
theorem C6_witness :
    maxUploadBytes < 52429825 ∧
    ((uploadRom { bodySize := 52429825, formFile := some "game.gba",
                  ctxClaims := some { subject := "alice", exp := 1 },
                  storeOk := true }).1.status = HttpStatus.badRequest ∧
     (uploadRom { bodySize := 52429825, formFile := some "game.gba",
                  ctxClaims := some { subject := "alice", exp := 1 },
                  storeOk := true }).2 = [] ∧
     (uploadSave { bodySize := 52429825, formFile := some "game.gba",
                   ctxClaims := some { subject := "alice", exp := 1 },
                   storeOk := true }).1.status = HttpStatus.badRequest ∧
     (uploadSave { bodySize := 52429825, formFile := some "game.gba",
                   ctxClaims := some { subject := "alice", exp := 1 },
                   storeOk := true }).2 = []) :=
  ⟨by decide, C6 _ (by decide)⟩

/-- Claim C7 (confirmed): a parsed ROM upload whose filename extension
(Go's `filepath.Ext`, a case-sensitive literal match) is outside
`{.gba, .gbc, .gb, .zip, .7z}` is answered 400 with the descriptive
rejection message and no store operation; when the extension is in the
allow-list the extension check passes — the rejection message is never the
response body. -/
theorem C7 (req : UploadRequest) (fn : String)
    (hform : formFileResult req = Except.ok fn) :
    (validRomExtensions.contains (filepathExt fn) = false →
      (uploadRom req).1 = { status := HttpStatus.badRequest, body := romExtErrorMsg } ∧
      (uploadRom req).2 = []) ∧
    (validRomExtensions.contains (filepathExt fn) = true →
      (uploadRom req).1.body ≠ romExtErrorMsg) := by
  constructor
  · intro hext
    have hmem : ¬ filepathExt fn ∈ validRomExtensions := by simpa using hext
    simp [uploadRom, hform, hmem]
  · intro hext
    have hmem : filepathExt fn ∈ validRomExtensions := by simpa using hext
    cases hsp : getStorePathFromClaims req.ctxClaims with
    | error e => simp [uploadRom, hform, hmem, hsp]; decide
    | ok sp => simp [uploadRom, hform, hmem, hsp]; decide

/-- Claim C7, witness: `notes.txt` is rejected with the descriptive message
and no store write; `game.gba` passes the extension check. -/
theorem C7_witness :
    ((uploadRom { bodySize := 0, formFile := some "notes.txt",
                  ctxClaims := some { subject := "alice", exp := 1 },
                  storeOk := true }).1 =
        { status := HttpStatus.badRequest, body := romExtErrorMsg } ∧
      (uploadRom { bodySize := 0, formFile := some "notes.txt",
                   ctxClaims := some { subject := "alice", exp := 1 },
                   storeOk := true }).2 = []) ∧
    (uploadRom { bodySize := 0, formFile := some "game.gba",
                 ctxClaims := some { subject := "alice", exp := 1 },
                 storeOk := true }).1.body ≠ romExtErrorMsg :=
  ⟨(C7 _ "notes.txt" (by decide)).1 (by decide),
   (C7 _ "game.gba" (by decide)).2 (by decide)⟩

/-- Claim C8 (confirmed): once a refresh error is recorded, or the held
token is expired or absent, the delay handed to `useInterval` is null — the
callback is suppressed entirely — and no step from such a state starts a new
refresh call (the in-flight count never grows). -/
theorem C8 (s : ClientState)
    (h : s.refreshTokenError = true ∨ isAuthB s.accessToken s.nowMs = false) :
    intervalDelay s = none ∧ ∀ s', Step s s' → s'.inFlight ≤ s.inFlight := by
  have hgate : (isAuthB s.accessToken s.nowMs && !s.refreshTokenError) = false := by
    rcases h with h | h <;> simp [h]
  constructor
  · simp [intervalDelay, hgate]
  · intro s' hstep
    cases hstep with
    | tick d hd => simp [intervalDelay, hgate] at hd
    | refreshSuccess tok hf => simp [Nat.sub_le]
    | refreshFailure hf => simp [Nat.sub_le]
    | login tok => simp
    | clearError hc => simp
    | advance t => simp

/-- Claim C8, witness: in a state with a recorded refresh error the delay is
null and no step grows the in-flight count. -/
theorem C8_witness :
    intervalDelay
      { accessToken := some (Token.wellFormed { exp := some 1000000 }),
        accessTokenSource := some TokenSource.refresh, accessTokenResp := none,
        refreshTokenError := true, inFlight := 0, nowMs := 0 } = none ∧
    ∀ s', Step
      { accessToken := some (Token.wellFormed { exp := some 1000000 }),
        accessTokenSource := some TokenSource.refresh, accessTokenResp := none,
        refreshTokenError := true, inFlight := 0, nowMs := 0 } s' →
      s'.inFlight ≤
        ClientState.inFlight
          { accessToken := some (Token.wellFormed { exp := some 1000000 }),
            accessTokenSource := some TokenSource.refresh, accessTokenResp := none,
            refreshTokenError := true, inFlight := 0, nowMs := 0 } :=
  C8 _ (Or.inl rfl)

/-- Claim C9 (confirmed): storage-path resolution is a pure map from claims,
so resolving the same claims twice yields the identical StorePath, and
claims with distinct subjects always resolve to distinct StorePaths. -/
theorem C9 :
    (∀ c : Option Claims, getStorePathFromClaims c = getStorePathFromClaims c) ∧
    (∀ c1 c2 : Claims, c1.subject ≠ c2.subject →
      getStorePathFromClaims (some c1) ≠ getStorePathFromClaims (some c2)) := by
  refine ⟨fun c => rfl, fun c1 c2 hne heq => hne ?_⟩
  have hsl : ("/" : String).data = ['/'] := rfl
  have h1 : c1.subject ++ "/" = c2.subject ++ "/" := by
    simpa [getStorePathFromClaims] using heq
  have h2 : c1.subject.data ++ ['/'] = c2.subject.data ++ ['/'] := by
    have h3 := congrArg String.data h1
    simpa [String.data_append, hsl] using h3
  exact String.ext (List.append_cancel_right h2)

/-- Claim C10 (confirmed): `isAuthenticated()` returns false for an absent
token and for a decodable token without an `exp` claim, but a held token
that `jwt-decode` rejects makes the call throw instead of returning
false. -/
theorem C10 (nowMs : Nat) (raw : String) :
    isAuthenticated none nowMs = Except.ok false ∧
    isAuthenticated (some (Token.malformed raw)) nowMs = Except.error () ∧
    isAuthenticated (some (Token.wellFormed { exp := none })) nowMs = Except.ok false :=
  ⟨rfl, rfl, rfl⟩

end GbEmu
